import Mathlib

/-!
# Verification of the flight-simulator core state functions

Shallow embedding of the movement / collision / star-field logic of the
`flight_simulator` repository.  JavaScript numbers are modelled as exact
rationals (`ℚ`); positions `{x, y}` become a two-field structure.

* `Movement.*` embeds `src/client/js/movement.js`.
* `Main.*` embeds the `computeNewPosition` exported by `src/client/main.js`
  (lines 443-464), which uses the module constant `speed = 0.1` and clamps
  in every case, including the default branch.
* `Server.*` models the server-side star field and world score, which are
  described by the design documents but whose implementation is not part of
  the repository snapshot.
-/

/- Batteries marks rational arithmetic `@[irreducible]` for performance; the
kernel reduces it regardless, and restoring the default reducibility lets
`decide` evaluate the embedded functions on concrete rational inputs. -/
set_option allowUnsafeReducibility true in
attribute [semireducible] Rat.add Rat.sub Rat.mul Rat.inv Rat.div

/-- A 2-D position `{x, y}` with exact rational coordinates. -/
structure Pos where
  x : ℚ
  y : ℚ
deriving DecidableEq, Repr

namespace Movement

/-- `const DEFAULT_SPEED = 0.1;` from `movement.js`. -/
def DEFAULT_SPEED : ℚ := 1 / 10

/-- `const MIN_BOUNDARY = -5;` from `movement.js`. -/
def MIN_BOUNDARY : ℚ := -5

/-- `const MAX_BOUNDARY = 5;` from `movement.js`. -/
def MAX_BOUNDARY : ℚ := 5

/-- `Math.min(MAX_BOUNDARY, Math.max(MIN_BOUNDARY, v))` — the per-coordinate
clamp applied at the end of `computeNewPosition`. -/
def clampCoord (v : ℚ) : ℚ := min MAX_BOUNDARY (max MIN_BOUNDARY v)

/-- Clamping of both coordinates, the two statements
`newPos.x = Math.min(...)` and `newPos.y = Math.min(...)`. -/
def clampPos (p : Pos) : Pos := { x := clampCoord p.x, y := clampCoord p.y }

/-- `computeNewPosition(pos, command, speed = DEFAULT_SPEED)` from
`movement.js`: the `switch` adds or subtracts `speed` on the axis selected by
the command and then clamps both coordinates; the `default` branch returns the
copy of the input position immediately, without clamping. -/
def computeNewPosition (pos : Pos) (command : String) (speed : ℚ) : Pos :=
  match command with
  | "up" => clampPos { pos with y := pos.y + speed }
  | "down" => clampPos { pos with y := pos.y - speed }
  | "left" => clampPos { pos with x := pos.x - speed }
  | "right" => clampPos { pos with x := pos.x + speed }
  | _ => pos

/-- `isColliding(p1, p2, threshold = 0.5)` from `movement.js`.  The source
compares `Math.sqrt(dx*dx + dy*dy) < threshold`; over the rationals this is
embedded by the equivalent square-free test
`0 ≤ threshold ∧ dx*dx + dy*dy < threshold*threshold`
(for `s ≥ 0`, `Real.sqrt s < t ↔ 0 ≤ t ∧ s < t*t`; the equivalence with the
square-root form is proved below as the C4 theorem). -/
def isColliding (p1 p2 : Pos) (threshold : ℚ) : Bool :=
  let dx := p1.x - p2.x
  let dy := p1.y - p2.y
  decide (0 ≤ threshold ∧ dx * dx + dy * dy < threshold * threshold)

/-- `isInBounds(pos)` from `movement.js`:
`pos.x >= MIN_BOUNDARY && pos.x <= MAX_BOUNDARY && pos.y >= MIN_BOUNDARY && pos.y <= MAX_BOUNDARY`. -/
def isInBounds (pos : Pos) : Bool :=
  decide (pos.x ≥ MIN_BOUNDARY) && decide (pos.x ≤ MAX_BOUNDARY) &&
  decide (pos.y ≥ MIN_BOUNDARY) && decide (pos.y ≤ MAX_BOUNDARY)

/-- Squared Euclidean distance between `{x := a, y := b}` offsets.  The source
uses `Math.hypot(closest.x - pos.x, closest.y - pos.y)` and only ever compares
two such values; since `Math.hypot(a,b) = sqrt(a*a + b*b)` and `sqrt` is
strictly monotone on nonnegatives, comparing the squares is equivalent
(`getClosestObject` below relies on this; the bridge to real square roots is
proved in the `C10` theorem). -/
def hypotSq (a b : ℚ) : ℚ := a * a + b * b

/-- The `reduce` callback of `getClosestObject`:
`(closest, current) => currentDist < closestDist ? current : closest`,
with the two `Math.hypot` distances compared through their squares. -/
def reduceCloser (pos closest current : Pos) : Pos :=
  if hypotSq (current.x - pos.x) (current.y - pos.y) <
     hypotSq (closest.x - pos.x) (closest.y - pos.y)
  then current else closest

/-- `getClosestObject(pos, objects)` from `movement.js`.  `objects` is
`Option (List Pos)` so that the JavaScript `null`/`undefined` arguments
(rejected by `if (!objects || objects.length === 0) return null;`) are
representable; the `reduce` with initial value `objects[0]` is a left fold
over the whole array starting from its first element. -/
def getClosestObject (pos : Pos) (objects : Option (List Pos)) : Option Pos :=
  match objects with
  | none => none
  | some [] => none
  | some (o :: os) => some ((o :: os).foldl (reduceCloser pos) o)

end Movement

namespace Main

/-- `const speed = 0.1;` — module constant of `main.js`. -/
def speed : ℚ := 1 / 10

/-- `computeNewPosition(pos, command)` from `main.js` (lines 443-464): same
`switch` as the `movement.js` version but with the module constant `speed`,
and the clamping statements run after the `switch` in every case — the
`default` branch is a plain `break`, so even an unrecognized command flows
into the clamp. -/
def computeNewPosition (pos : Pos) (command : String) : Pos :=
  let newPos : Pos :=
    match command with
    | "up" => { pos with y := pos.y + speed }
    | "down" => { pos with y := pos.y - speed }
    | "left" => { pos with x := pos.x - speed }
    | "right" => { pos with x := pos.x + speed }
    | _ => pos
  { x := min 5 (max (-5) newPos.x), y := min 5 (max (-5) newPos.y) }

end Main

/-- Statement-level re-embedding of `computeNewPosition` from `movement.js`
with the two object cells of the body made explicit: the first component is
the caller's `pos` object, the second the local `newPos`.  The body starts
with `const newPos = { ...pos }` (a field-wise copy), each `switch` case
assigns only to fields of `newPos`, and the clamp statements also write only
`newPos`; the pair returned exposes the final contents of both cells. -/
def Movement.computeNewPositionCells (pos : Pos) (command : String) (speed : ℚ) :
    Pos × Pos :=
  let cells : Pos × Pos := (pos, pos)
  match command with
  | "up" => (cells.1, Movement.clampPos { cells.2 with y := cells.2.y + speed })
  | "down" => (cells.1, Movement.clampPos { cells.2 with y := cells.2.y - speed })
  | "left" => (cells.1, Movement.clampPos { cells.2 with x := cells.2.x - speed })
  | "right" => (cells.1, Movement.clampPos { cells.2 with x := cells.2.x + speed })
  | _ => (cells.1, cells.2)

namespace Server

/-- Modelled from the spec: the server-side `Star` entity
`{id (unique within field), position {x,y}, value (positive integer)}` of §3;
the server implementation itself is not part of the repository snapshot. -/
structure Star where
  id : Nat
  x : ℚ
  y : ℚ
  value : Nat
deriving DecidableEq, Repr

/-- Modelled from the spec: the authoritative server state of §2-§4 — the
star field (list of active stars), the world/team score, the monotonic
star-id counter, and the configured target star count.  The server
implementation is not part of the repository snapshot. -/
structure World where
  stars : List Star
  score : Nat
  nextId : Nat
  target : Nat
deriving DecidableEq, Repr

/-- Modelled from the spec: `spawn()` of §4.3 — appends a new star with a
fresh id from the monotonic counter; the randomly sampled position and the
low-probability "special" outcome are supplied as oracle arguments, value 5
when special and 1 otherwise.  The server implementation is not part of the
repository snapshot. -/
def spawn (w : World) (px py : ℚ) (special : Bool) : World :=
  { w with
    stars := w.stars ++
      [{ id := w.nextId, x := px, y := py, value := if special then 5 else 1 }],
    nextId := w.nextId + 1 }

/-- Modelled from the spec: `collect(starId)` of §4.3 — removes the star if
present and returns its value, returns `none` (stale collection, benign) when
the id is absent.  The server implementation is not part of the repository
snapshot. -/
def collect (w : World) (starId : Nat) : World × Option Nat :=
  match w.stars.find? (fun s => s.id == starId) with
  | some s =>
    ({ w with stars := w.stars.eraseP (fun t => t.id == starId) }, some s.value)
  | none => (w, none)

/-- One collect event as processed by the collision/collection engine: the
star id being collected plus the oracle data (position, special flag) for the
replacement star that a successful collection spawns. -/
structure Ev where
  starId : Nat
  px : ℚ
  py : ℚ
  special : Bool
deriving DecidableEq, Repr

/-- Modelled from the spec: §4.4 processing of one collection — invoke
`collect`, add the returned value to the world score, and `spawn` exactly one
replacement; a stale collection (star already gone) is a silent no-op.  The
server implementation is not part of the repository snapshot. -/
def collectEvent (w : World) (e : Ev) : World :=
  match collect w e.starId with
  | (w', some v) => spawn { w' with score := w'.score + v } e.px e.py e.special
  | (w', none) => w'

/-- Sequential processing of a list of collect events by the serialized
tick/command path of §5. -/
def run (w : World) (evs : List Ev) : World := evs.foldl collectEvent w

/-- The values actually credited while processing the events in order
(stale collections credit nothing). -/
def collectedValues (w : World) (evs : List Ev) : List Nat :=
  match evs with
  | [] => []
  | e :: rest =>
    match (collect w e.starId).2 with
    | some v => v :: collectedValues (collectEvent w e) rest
    | none => collectedValues (collectEvent w e) rest

end Server

namespace Movement

lemma computeNewPosition_up (p : Pos) (s : ℚ) :
    computeNewPosition p "up" s = clampPos { p with y := p.y + s } := rfl

lemma computeNewPosition_down (p : Pos) (s : ℚ) :
    computeNewPosition p "down" s = clampPos { p with y := p.y - s } := rfl

lemma computeNewPosition_left (p : Pos) (s : ℚ) :
    computeNewPosition p "left" s = clampPos { p with x := p.x - s } := rfl

lemma computeNewPosition_right (p : Pos) (s : ℚ) :
    computeNewPosition p "right" s = clampPos { p with x := p.x + s } := rfl

lemma computeNewPosition_other (p : Pos) (c : String) (s : ℚ)
    (h1 : c ≠ "up") (h2 : c ≠ "down") (h3 : c ≠ "left") (h4 : c ≠ "right") :
    computeNewPosition p c s = p := by
  unfold computeNewPosition
  split <;> simp_all

lemma clampCoord_le (v : ℚ) : clampCoord v ≤ 5 := min_le_left _ _

lemma le_clampCoord (v : ℚ) : -5 ≤ clampCoord v :=
  le_min (by norm_num [MAX_BOUNDARY]) (le_max_left _ _)

lemma clampCoord_of_mem (v : ℚ) (h1 : -5 ≤ v) (h2 : v ≤ 5) : clampCoord v = v := by
  unfold clampCoord MAX_BOUNDARY MIN_BOUNDARY
  rw [max_eq_right h1, min_eq_right h2]

lemma isInBounds_iff (q : Pos) :
    isInBounds q = true ↔ -5 ≤ q.x ∧ q.x ≤ 5 ∧ -5 ≤ q.y ∧ q.y ≤ 5 := by
  unfold isInBounds MIN_BOUNDARY MAX_BOUNDARY
  simp only [Bool.and_eq_true, decide_eq_true_eq, ge_iff_le, and_assoc]

lemma isInBounds_clampPos (q : Pos) : isInBounds (clampPos q) = true := by
  rw [isInBounds_iff]
  exact ⟨le_clampCoord _, clampCoord_le _, le_clampCoord _, clampCoord_le _⟩

lemma clampPos_of_isInBounds (q : Pos) (h : isInBounds q = true) : clampPos q = q := by
  rw [isInBounds_iff] at h
  obtain ⟨h1, h2, h3, h4⟩ := h
  unfold clampPos
  rw [clampCoord_of_mem _ h1 h2, clampCoord_of_mem _ h3 h4]

end Movement

/-- C1: for every position `p` and every direction `d` among up, down, left
and right, each coordinate of `computeNewPosition(p, d)` lies within the world
boundary `[-5, 5]` even when the pre-clamp value would exceed it; in
particular for `p = {x: 5, y: 5}` and `d = "right"` the result's `x` is `5`. -/
theorem c1_new_position_within_bounds (p : Pos) (cmd : String)
    (h : cmd = "up" ∨ cmd = "down" ∨ cmd = "left" ∨ cmd = "right") :
    (-5 ≤ (Movement.computeNewPosition p cmd Movement.DEFAULT_SPEED).x ∧
      (Movement.computeNewPosition p cmd Movement.DEFAULT_SPEED).x ≤ 5 ∧
      -5 ≤ (Movement.computeNewPosition p cmd Movement.DEFAULT_SPEED).y ∧
      (Movement.computeNewPosition p cmd Movement.DEFAULT_SPEED).y ≤ 5) ∧
    (Movement.computeNewPosition ⟨5, 5⟩ "right" Movement.DEFAULT_SPEED).x = 5 := by
  refine ⟨?_, by decide⟩
  rcases h with rfl | rfl | rfl | rfl <;>
    first
    | rw [Movement.computeNewPosition_up]
    | rw [Movement.computeNewPosition_down]
    | rw [Movement.computeNewPosition_left]
    | rw [Movement.computeNewPosition_right]
  all_goals
    exact ⟨Movement.le_clampCoord _, Movement.clampCoord_le _,
      Movement.le_clampCoord _, Movement.clampCoord_le _⟩

/-- Witness for C1 at `p = {x: 0, y: 0}`, `d = "up"`. -/
theorem c1_new_position_within_bounds_witness :
    (-5 ≤ (Movement.computeNewPosition ⟨0, 0⟩ "up" Movement.DEFAULT_SPEED).x ∧
      (Movement.computeNewPosition ⟨0, 0⟩ "up" Movement.DEFAULT_SPEED).x ≤ 5 ∧
      -5 ≤ (Movement.computeNewPosition ⟨0, 0⟩ "up" Movement.DEFAULT_SPEED).y ∧
      (Movement.computeNewPosition ⟨0, 0⟩ "up" Movement.DEFAULT_SPEED).y ≤ 5) ∧
    (Movement.computeNewPosition ⟨5, 5⟩ "right" Movement.DEFAULT_SPEED).x = 5 :=
  c1_new_position_within_bounds ⟨0, 0⟩ "up" (Or.inl rfl)

/-- C2 counterexample: at `p = {x: 5, y: 0}` and `d = "right"` the clamp keeps
`x` at `5`, so the x-axis does not change by the speed constant `0.1` as the
claim states. -/
theorem c2_counterexample_clamp_absorbs_speed :
    (Movement.computeNewPosition ⟨5, 0⟩ "right" Movement.DEFAULT_SPEED).x ≠
      (⟨5, 0⟩ : Pos).x + Movement.DEFAULT_SPEED := by decide

/-- C2 (amended): for every in-bounds position `p` and every direction, the
step changes exactly the direction's axis by exactly the speed constant and
leaves the other axis unchanged, provided the moved value stays within the
world boundary `[-5, 5]`; at the boundary the moved axis is clamped instead. -/
theorem c2_exact_axis_displacement (p : Pos)
    (h : -5 ≤ p.x ∧ p.x ≤ 5 ∧ -5 ≤ p.y ∧ p.y ≤ 5) :
    (p.y + Movement.DEFAULT_SPEED ≤ 5 →
      Movement.computeNewPosition p "up" Movement.DEFAULT_SPEED =
        ⟨p.x, p.y + Movement.DEFAULT_SPEED⟩) ∧
    (-5 ≤ p.y - Movement.DEFAULT_SPEED →
      Movement.computeNewPosition p "down" Movement.DEFAULT_SPEED =
        ⟨p.x, p.y - Movement.DEFAULT_SPEED⟩) ∧
    (-5 ≤ p.x - Movement.DEFAULT_SPEED →
      Movement.computeNewPosition p "left" Movement.DEFAULT_SPEED =
        ⟨p.x - Movement.DEFAULT_SPEED, p.y⟩) ∧
    (p.x + Movement.DEFAULT_SPEED ≤ 5 →
      Movement.computeNewPosition p "right" Movement.DEFAULT_SPEED =
        ⟨p.x + Movement.DEFAULT_SPEED, p.y⟩) := by
  obtain ⟨hx1, hx2, hy1, hy2⟩ := h
  have hs : (0 : ℚ) ≤ Movement.DEFAULT_SPEED := by norm_num [Movement.DEFAULT_SPEED]
  refine ⟨fun hm => ?_, fun hm => ?_, fun hm => ?_, fun hm => ?_⟩
  · rw [Movement.computeNewPosition_up]
    unfold Movement.clampPos
    rw [Movement.clampCoord_of_mem _ hx1 hx2,
      Movement.clampCoord_of_mem _ (le_trans hy1 (le_add_of_nonneg_right hs)) hm]
  · rw [Movement.computeNewPosition_down]
    unfold Movement.clampPos
    rw [Movement.clampCoord_of_mem _ hx1 hx2,
      Movement.clampCoord_of_mem _ hm (le_trans (sub_le_self _ hs) hy2)]
  · rw [Movement.computeNewPosition_left]
    unfold Movement.clampPos
    rw [Movement.clampCoord_of_mem _ hm (le_trans (sub_le_self _ hs) hx2),
      Movement.clampCoord_of_mem _ hy1 hy2]
  · rw [Movement.computeNewPosition_right]
    unfold Movement.clampPos
    rw [Movement.clampCoord_of_mem _ (le_trans hx1 (le_add_of_nonneg_right hs)) hm,
      Movement.clampCoord_of_mem _ hy1 hy2]

/-- Witness for C2 (amended) at `p = {x: 0, y: 0}`. -/
theorem c2_exact_axis_displacement_witness :
    ((0 : ℚ) + Movement.DEFAULT_SPEED ≤ 5 →
      Movement.computeNewPosition ⟨0, 0⟩ "up" Movement.DEFAULT_SPEED =
        ⟨0, 0 + Movement.DEFAULT_SPEED⟩) ∧
    (-5 ≤ (0 : ℚ) - Movement.DEFAULT_SPEED →
      Movement.computeNewPosition ⟨0, 0⟩ "down" Movement.DEFAULT_SPEED =
        ⟨0, 0 - Movement.DEFAULT_SPEED⟩) ∧
    (-5 ≤ (0 : ℚ) - Movement.DEFAULT_SPEED →
      Movement.computeNewPosition ⟨0, 0⟩ "left" Movement.DEFAULT_SPEED =
        ⟨0 - Movement.DEFAULT_SPEED, 0⟩) ∧
    ((0 : ℚ) + Movement.DEFAULT_SPEED ≤ 5 →
      Movement.computeNewPosition ⟨0, 0⟩ "right" Movement.DEFAULT_SPEED =
        ⟨0 + Movement.DEFAULT_SPEED, 0⟩) :=
  c2_exact_axis_displacement ⟨0, 0⟩ (by norm_num)

/-- C3: for every position `p` and every command outside up/down/left/right,
`computeNewPosition(p, command)` returns a position equal to `p` and no error
is raised (the embedded function is total). -/
theorem c3_invalid_command_is_noop (p : Pos) (c : String)
    (h : c ≠ "up" ∧ c ≠ "down" ∧ c ≠ "left" ∧ c ≠ "right") :
    Movement.computeNewPosition p c Movement.DEFAULT_SPEED = p :=
  Movement.computeNewPosition_other p c Movement.DEFAULT_SPEED h.1 h.2.1 h.2.2.1 h.2.2.2

/-- Witness for C3 at `p = {x: 3, y: 4}`, `command = "invalid"`. -/
theorem c3_invalid_command_is_noop_witness :
    Movement.computeNewPosition ⟨3, 4⟩ "invalid" Movement.DEFAULT_SPEED = ⟨3, 4⟩ :=
  c3_invalid_command_is_noop ⟨3, 4⟩ "invalid" (by decide)

/-- C5: `isInBounds` is an invariant of every movement step: if both
coordinates of `p` are within `[-5, 5]`, so are both coordinates of
`computeNewPosition(p, command)` for every command string. -/
theorem c5_isInBounds_invariant (p : Pos) (c : String)
    (h : Movement.isInBounds p = true) :
    Movement.isInBounds (Movement.computeNewPosition p c Movement.DEFAULT_SPEED) = true := by
  rcases eq_or_ne c "up" with rfl | h1
  · rw [Movement.computeNewPosition_up]; exact Movement.isInBounds_clampPos _
  rcases eq_or_ne c "down" with rfl | h2
  · rw [Movement.computeNewPosition_down]; exact Movement.isInBounds_clampPos _
  rcases eq_or_ne c "left" with rfl | h3
  · rw [Movement.computeNewPosition_left]; exact Movement.isInBounds_clampPos _
  rcases eq_or_ne c "right" with rfl | h4
  · rw [Movement.computeNewPosition_right]; exact Movement.isInBounds_clampPos _
  rw [Movement.computeNewPosition_other p c _ h1 h2 h3 h4]
  exact h

/-- Witness for C5 at `p = {x: 5, y: 5}`, `command = "right"`. -/
theorem c5_isInBounds_invariant_witness :
    Movement.isInBounds
      (Movement.computeNewPosition ⟨5, 5⟩ "right" Movement.DEFAULT_SPEED) = true :=
  c5_isInBounds_invariant ⟨5, 5⟩ "right" (by decide)

namespace Movement

lemma computeNewPositionCells_spec (p : Pos) (c : String) (s : ℚ) :
    computeNewPositionCells p c s = (p, computeNewPosition p c s) := by
  rcases eq_or_ne c "up" with rfl | h1
  · rfl
  rcases eq_or_ne c "down" with rfl | h2
  · rfl
  rcases eq_or_ne c "left" with rfl | h3
  · rfl
  rcases eq_or_ne c "right" with rfl | h4
  · rfl
  rw [computeNewPosition_other p c s h1 h2 h3 h4]
  unfold computeNewPositionCells
  dsimp only
  split <;> simp_all

end Movement

/-- C8: `computeNewPosition` is deterministic — two calls with equal
`(pos, command, speed)` inputs return equal results — and side-effect-free:
in the statement-level embedding with the caller's `pos` object and the local
`newPos` as explicit cells, the `pos` cell is returned unchanged and the
returned `newPos` agrees with the pure function. -/
theorem c8_deterministic_effect_free (p p2 : Pos) (c c2 : String) (s s2 : ℚ)
    (h1 : p = p2) (h2 : c = c2) (h3 : s = s2) :
    (Movement.computeNewPositionCells p c s).1 = p ∧
    (Movement.computeNewPositionCells p c s).2 = Movement.computeNewPosition p c s ∧
    Movement.computeNewPosition p c s = Movement.computeNewPosition p2 c2 s2 := by
  subst h1
  subst h2
  subst h3
  rw [Movement.computeNewPositionCells_spec]
  exact ⟨rfl, rfl, rfl⟩

/-- Witness for C8 at `pos = {x: 1, y: 2}`, `command = "up"`, default speed. -/
theorem c8_deterministic_effect_free_witness :
    (Movement.computeNewPositionCells ⟨1, 2⟩ "up" Movement.DEFAULT_SPEED).1 = ⟨1, 2⟩ ∧
    (Movement.computeNewPositionCells ⟨1, 2⟩ "up" Movement.DEFAULT_SPEED).2 =
      Movement.computeNewPosition ⟨1, 2⟩ "up" Movement.DEFAULT_SPEED ∧
    Movement.computeNewPosition ⟨1, 2⟩ "up" Movement.DEFAULT_SPEED =
      Movement.computeNewPosition ⟨1, 2⟩ "up" Movement.DEFAULT_SPEED :=
  c8_deterministic_effect_free ⟨1, 2⟩ ⟨1, 2⟩ "up" "up"
    Movement.DEFAULT_SPEED Movement.DEFAULT_SPEED rfl rfl rfl

/-- C9 counterexample: on the out-of-bounds position `{x: 10, y: 0}` with the
invalid command `"hover"`, the `main.js` implementation clamps to
`{x: 5, y: 0}` while the `movement.js` implementation returns the input
unchanged, so the two exported functions are not equivalent. -/
theorem c9_counterexample_main_clamps_invalid :
    Main.computeNewPosition ⟨10, 0⟩ "hover" ≠
      Movement.computeNewPosition ⟨10, 0⟩ "hover" Movement.DEFAULT_SPEED := by
  decide

/-- C9 (amended): the `main.js` and `movement.js` implementations of
`computeNewPosition` (the latter at its default speed `0.1`) agree whenever
the command is a valid direction, and also on every in-bounds position for
arbitrary commands; they differ only on out-of-bounds positions combined with
invalid commands, where `main.js` clamps and `movement.js` does not. -/
theorem c9_implementations_agree (p : Pos) (c : String)
    (h : (c = "up" ∨ c = "down" ∨ c = "left" ∨ c = "right") ∨
      Movement.isInBounds p = true) :
    Main.computeNewPosition p c =
      Movement.computeNewPosition p c Movement.DEFAULT_SPEED := by
  rcases h with hdir | hin
  · rcases hdir with rfl | rfl | rfl | rfl <;> rfl
  · rcases eq_or_ne c "up" with rfl | h1
    · rfl
    rcases eq_or_ne c "down" with rfl | h2
    · rfl
    rcases eq_or_ne c "left" with rfl | h3
    · rfl
    rcases eq_or_ne c "right" with rfl | h4
    · rfl
    rw [Movement.computeNewPosition_other p c _ h1 h2 h3 h4]
    unfold Main.computeNewPosition
    dsimp only
    split <;> first
      | exact Movement.clampPos_of_isInBounds p hin
      | simp_all

/-- C4: `isColliding(p1, p2, threshold)` returns true exactly when the
Euclidean distance `sqrt((p1.x-p2.x)^2 + (p1.y-p2.y)^2)` is strictly less
than the threshold; in particular `isColliding({0,0},{0.1,0.1},0.5)` is true
and `isColliding({0,0},{10,10},1)` is false. -/
theorem c4_isColliding_iff_euclidean :
    (∀ (p1 p2 : Pos) (t : ℚ),
      Movement.isColliding p1 p2 t = true ↔
        Real.sqrt (((p1.x - p2.x : ℚ) : ℝ) ^ 2 + ((p1.y - p2.y : ℚ) : ℝ) ^ 2) <
          (t : ℝ)) ∧
    Movement.isColliding ⟨0, 0⟩ ⟨1/10, 1/10⟩ (1/2) = true ∧
    Movement.isColliding ⟨0, 0⟩ ⟨10, 10⟩ 1 = false := by
  refine ⟨?_, by decide, by decide⟩
  intro p1 p2 t
  have hcast : ((p1.x - p2.x : ℚ) : ℝ) ^ 2 + ((p1.y - p2.y : ℚ) : ℝ) ^ 2 =
      (((p1.x - p2.x) * (p1.x - p2.x) + (p1.y - p2.y) * (p1.y - p2.y) : ℚ) : ℝ) := by
    push_cast
    ring
  rw [hcast]
  unfold Movement.isColliding
  simp only [decide_eq_true_eq]
  constructor
  · rintro ⟨ht, hlt⟩
    have hS : (0 : ℚ) ≤
        (p1.x - p2.x) * (p1.x - p2.x) + (p1.y - p2.y) * (p1.y - p2.y) :=
      add_nonneg (mul_self_nonneg _) (mul_self_nonneg _)
    have htpos : (0 : ℚ) < t := by
      rcases ht.lt_or_eq with hpos | hzero
      · exact hpos
      · exfalso
        rw [← hzero] at hlt
        simp only [mul_zero, zero_mul] at hlt
        exact absurd hlt (not_lt.mpr hS)
    rw [Real.sqrt_lt' (by exact_mod_cast htpos)]
    rw [show ((t : ℚ) : ℝ) ^ 2 = ((t * t : ℚ) : ℝ) by push_cast; ring]
    exact_mod_cast hlt
  · intro h
    have hsqrtnn := Real.sqrt_nonneg
      (((p1.x - p2.x) * (p1.x - p2.x) + (p1.y - p2.y) * (p1.y - p2.y) : ℚ) : ℝ)
    have htRpos : (0 : ℝ) < (t : ℝ) := lt_of_le_of_lt hsqrtnn h
    have htpos : (0 : ℚ) < t := by exact_mod_cast htRpos
    refine ⟨le_of_lt htpos, ?_⟩
    rw [Real.sqrt_lt' htRpos,
      show ((t : ℚ) : ℝ) ^ 2 = ((t * t : ℚ) : ℝ) by push_cast; ring] at h
    exact_mod_cast h

/-- Witness for C9 (amended) at `p = {x: 10, y: 10}`, `command = "right"`. -/
theorem c9_implementations_agree_witness :
    Main.computeNewPosition ⟨10, 10⟩ "right" =
      Movement.computeNewPosition ⟨10, 10⟩ "right" Movement.DEFAULT_SPEED :=
  c9_implementations_agree ⟨10, 10⟩ "right" (Or.inl (Or.inr (Or.inr (Or.inr rfl))))

/-- Witness for C4 at `p1 = {0,0}`, `p2 = {1,1}`, `threshold = 3`. -/
theorem c4_isColliding_iff_euclidean_witness :
    Movement.isColliding ⟨0, 0⟩ ⟨1, 1⟩ 3 = true ↔
      Real.sqrt ((((0 : ℚ) - 1 : ℚ) : ℝ) ^ 2 + (((0 : ℚ) - 1 : ℚ) : ℝ) ^ 2) <
        ((3 : ℚ) : ℝ) :=
  c4_isColliding_iff_euclidean.1 ⟨0, 0⟩ ⟨1, 1⟩ 3

namespace Server

lemma collect_score (w : World) (starId : Nat) :
    (collect w starId).1.score = w.score := by
  unfold collect
  cases w.stars.find? (fun s => s.id == starId) <;> rfl

lemma collectEvent_score (w : World) (e : Ev) :
    (collectEvent w e).score = w.score + ((collect w e.starId).2.getD 0) := by
  unfold collectEvent collect spawn
  cases w.stars.find? (fun s => s.id == e.starId) <;> simp

lemma collectEvent_stars_length (w : World) (e : Ev) :
    (collectEvent w e).stars.length = w.stars.length := by
  unfold collectEvent collect spawn
  cases hfind : w.stars.find? (fun s => s.id == e.starId) with
  | none => rfl
  | some s =>
    have hmem := List.mem_of_find?_eq_some hfind
    have hp := List.find?_some hfind
    simp only [List.length_append, List.length_cons, List.length_nil]
    rw [List.length_eraseP_add_one hmem hp]

lemma run_cons (w : World) (e : Ev) (evs : List Ev) :
    run w (e :: evs) = run (collectEvent w e) evs := rfl

lemma collectedValues_cons (w : World) (e : Ev) (rest : List Ev) :
    collectedValues w (e :: rest) =
      match (collect w e.starId).2 with
      | some v => v :: collectedValues (collectEvent w e) rest
      | none => collectedValues (collectEvent w e) rest := rfl

lemma run_score (w : World) (evs : List Ev) :
    (run w evs).score = w.score + (collectedValues w evs).sum := by
  induction evs generalizing w with
  | nil => simp [run, collectedValues]
  | cons e rest ih =>
    rw [run_cons, ih, collectedValues_cons, collectEvent_score]
    cases hc : (collect w e.starId).2 with
    | none => simp [hc]
    | some v => simp [hc, Nat.add_assoc]

lemma score_le_run (w : World) (evs : List Ev) : w.score ≤ (run w evs).score := by
  rw [run_score]
  exact Nat.le_add_right _ _

lemma run_append (w : World) (evs1 evs2 : List Ev) :
    run w (evs1 ++ evs2) = run (run w evs1) evs2 :=
  List.foldl_append ..

lemma run_stars_length (w : World) (evs : List Ev) :
    (run w evs).stars.length = w.stars.length := by
  induction evs generalizing w with
  | nil => rfl
  | cons e rest ih => rw [run_cons, ih, collectEvent_stars_length]

end Server

/-- C6 (spec-modelled): for any sequence of collect events processed by the
modelled server, the cumulative world score equals the initial score plus the
sum of the collected star values, and the score never decreases at any step
(in particular it is monotone along every prefix of the event sequence). -/
theorem c6_score_monotone_sum (w : Server.World) (evs evs2 : List Server.Ev) :
    (Server.run w evs).score = w.score + (Server.collectedValues w evs).sum ∧
    w.score ≤ (Server.run w evs).score ∧
    (Server.run w evs).score ≤ (Server.run w (evs ++ evs2)).score := by
  refine ⟨Server.run_score w evs, Server.score_le_run w evs, ?_⟩
  rw [Server.run_append]
  exact Server.score_le_run _ _

/-- C7 (spec-modelled): after any sequence of collect events, the number of
active stars equals the configured target count — every successful collect is
immediately followed by exactly one spawn, and a stale collect changes
nothing. -/
theorem c7_star_count_constant (w : Server.World) (evs : List Server.Ev)
    (h : w.stars.length = w.target) :
    (Server.run w evs).stars.length = w.target := by
  rw [Server.run_stars_length, h]

/-- Witness for C7: a field with one star and target count 1, processing one
successful collect and one stale collect. -/
theorem c7_star_count_constant_witness :
    (Server.run
      { stars := [{ id := 0, x := 0, y := 0, value := 1 }],
        score := 0, nextId := 1, target := 1 }
      [{ starId := 0, px := 2, py := 2, special := false },
       { starId := 77, px := 3, py := 3, special := true }]).stars.length = 1 :=
  c7_star_count_constant _ _ (by decide)

namespace Movement

lemma hypotSq_nonneg (a b : ℚ) : 0 ≤ hypotSq a b :=
  add_nonneg (mul_self_nonneg a) (mul_self_nonneg b)

lemma reduceCloser_dist_le (pos a c : Pos) :
    hypotSq ((reduceCloser pos a c).x - pos.x) ((reduceCloser pos a c).y - pos.y) ≤
      hypotSq (a.x - pos.x) (a.y - pos.y) := by
  unfold reduceCloser
  split
  next h => exact le_of_lt h
  next h => exact le_refl _

lemma foldl_reduceCloser_dist_le (pos : Pos) (l : List Pos) (a : Pos) :
    hypotSq ((l.foldl (reduceCloser pos) a).x - pos.x)
        ((l.foldl (reduceCloser pos) a).y - pos.y) ≤
      hypotSq (a.x - pos.x) (a.y - pos.y) := by
  induction l generalizing a with
  | nil => exact le_refl _
  | cons c t ih =>
    rw [List.foldl_cons]
    exact le_trans (ih (reduceCloser pos a c)) (reduceCloser_dist_le pos a c)

lemma foldl_reduceCloser_spec (pos : Pos) (l : List Pos) (a : Pos) :
    ∃ l1 l2, a :: l = l1 ++ (l.foldl (reduceCloser pos) a) :: l2 ∧
      (∀ o ∈ l1,
        hypotSq ((l.foldl (reduceCloser pos) a).x - pos.x)
            ((l.foldl (reduceCloser pos) a).y - pos.y) <
          hypotSq (o.x - pos.x) (o.y - pos.y)) ∧
      (∀ o ∈ l2,
        hypotSq ((l.foldl (reduceCloser pos) a).x - pos.x)
            ((l.foldl (reduceCloser pos) a).y - pos.y) ≤
          hypotSq (o.x - pos.x) (o.y - pos.y)) := by
  induction l generalizing a with
  | nil => exact ⟨[], [], rfl, by simp, by simp⟩
  | cons c t ih =>
    rw [List.foldl_cons]
    by_cases hc : hypotSq (c.x - pos.x) (c.y - pos.y) <
        hypotSq (a.x - pos.x) (a.y - pos.y)
    · have hf : reduceCloser pos a c = c := if_pos hc
      rw [hf]
      obtain ⟨l1, l2, hdec, hstrict, hle⟩ := ih c
      refine ⟨a :: l1, l2, ?_, ?_, hle⟩
      · rw [List.cons_append, ← hdec]
      · intro o ho
        rcases List.mem_cons.mp ho with rfl | ho'
        · exact lt_of_le_of_lt (foldl_reduceCloser_dist_le pos t c) hc
        · exact hstrict o ho'
    · have hf : reduceCloser pos a c = a := if_neg hc
      rw [hf]
      have hac : hypotSq (a.x - pos.x) (a.y - pos.y) ≤
          hypotSq (c.x - pos.x) (c.y - pos.y) := le_of_not_lt hc
      obtain ⟨l1, l2, hdec, hstrict, hle⟩ := ih a
      cases l1 with
      | nil =>
        simp only [List.nil_append] at hdec
        injection hdec with ha hl2
        refine ⟨[], c :: l2, ?_, by simp, ?_⟩
        · rw [List.nil_append, ← ha, ← hl2]
        · intro o ho
          rcases List.mem_cons.mp ho with rfl | ho'
          · rw [← ha]
            exact hac
          · exact hle o ho'
      | cons b l1' =>
        simp only [List.cons_append] at hdec
        injection hdec with ha ht
        subst ha
        refine ⟨a :: c :: l1', l2, ?_, ?_, hle⟩
        · simp only [List.cons_append]
          exact congrArg (fun xs => a :: c :: xs) ht
        · intro o ho
          rcases List.mem_cons.mp ho with rfl | ho'
          · exact hstrict o (List.mem_cons_self _ _)
          rcases List.mem_cons.mp ho' with rfl | ho''
          · exact lt_of_lt_of_le (hstrict a (List.mem_cons_self _ _)) hac
          · exact hstrict o (List.mem_cons_of_mem _ ho'')

end Movement

/-- C10: `getClosestObject(pos, objects)` returns null for null, undefined or
empty input; for a non-empty array it returns an element of the array whose
Euclidean distance to `pos` is minimal, and among elements at the same minimal
distance it returns the earliest: the array splits as `l1 ++ r :: l2` with the
result `r` strictly closer than everything before it and at least as close as
everything after it. -/
theorem c10_getClosestObject_spec :
    (∀ pos : Pos, Movement.getClosestObject pos none = none ∧
      Movement.getClosestObject pos (some []) = none) ∧
    (∀ (pos : Pos) (l : List Pos), l ≠ [] →
      ∃ r l1 l2,
        Movement.getClosestObject pos (some l) = some r ∧
        l = l1 ++ r :: l2 ∧
        (∀ o ∈ l1,
          Real.sqrt ((Movement.hypotSq (r.x - pos.x) (r.y - pos.y) : ℚ) : ℝ) <
            Real.sqrt ((Movement.hypotSq (o.x - pos.x) (o.y - pos.y) : ℚ) : ℝ)) ∧
        (∀ o ∈ l2,
          Real.sqrt ((Movement.hypotSq (r.x - pos.x) (r.y - pos.y) : ℚ) : ℝ) ≤
            Real.sqrt ((Movement.hypotSq (o.x - pos.x) (o.y - pos.y) : ℚ) : ℝ))) := by
  refine ⟨fun pos => ⟨rfl, rfl⟩, ?_⟩
  intro pos l hl
  obtain ⟨o, os, rfl⟩ := List.exists_cons_of_ne_nil hl
  have hoo : Movement.reduceCloser pos o o = o := if_neg (lt_irrefl _)
  have hfold : (o :: os).foldl (Movement.reduceCloser pos) o =
      os.foldl (Movement.reduceCloser pos) o := by
    rw [List.foldl_cons, hoo]
  obtain ⟨l1, l2, hdec, hstrict, hle⟩ := Movement.foldl_reduceCloser_spec pos os o
  refine ⟨os.foldl (Movement.reduceCloser pos) o, l1, l2, ?_, hdec, ?_, ?_⟩
  · show some ((o :: os).foldl (Movement.reduceCloser pos) o) = _
    rw [hfold]
  · intro o' ho'
    exact Real.sqrt_lt_sqrt
      (by exact_mod_cast Movement.hypotSq_nonneg _ _)
      (by exact_mod_cast hstrict o' ho')
  · intro o' ho'
    exact Real.sqrt_le_sqrt (by exact_mod_cast hle o' ho')

/-- Witness for C10 on the array `[{2,2}, {1,1}]` seen from the origin. -/
theorem c10_getClosestObject_spec_witness :
    ∃ r l1 l2,
      Movement.getClosestObject ⟨0, 0⟩ (some [⟨2, 2⟩, ⟨1, 1⟩]) = some r ∧
      ([⟨2, 2⟩, ⟨1, 1⟩] : List Pos) = l1 ++ r :: l2 ∧
      (∀ o ∈ l1,
        Real.sqrt ((Movement.hypotSq (r.x - (⟨0, 0⟩ : Pos).x)
            (r.y - (⟨0, 0⟩ : Pos).y) : ℚ) : ℝ) <
          Real.sqrt ((Movement.hypotSq (o.x - (⟨0, 0⟩ : Pos).x)
            (o.y - (⟨0, 0⟩ : Pos).y) : ℚ) : ℝ)) ∧
      (∀ o ∈ l2,
        Real.sqrt ((Movement.hypotSq (r.x - (⟨0, 0⟩ : Pos).x)
            (r.y - (⟨0, 0⟩ : Pos).y) : ℚ) : ℝ) ≤
          Real.sqrt ((Movement.hypotSq (o.x - (⟨0, 0⟩ : Pos).x)
            (o.y - (⟨0, 0⟩ : Pos).y) : ℚ) : ℝ)) :=
  c10_getClosestObject_spec.2 ⟨0, 0⟩ [⟨2, 2⟩, ⟨1, 1⟩] (by decide)

